import Mathlib

/-!
Verification of the attention-core components of an educational attention
library: scaled dot-product attention (SDPA) and its multi-head variants
(MHA, MQA, GQA, MLA).  Tensors of rank 4 are embedded as curried index
functions over `Fin`; the trailing two axes are the (position, feature)
axes that torch.matmul contracts.  Floating-point negative infinity, which
the source introduces through masked_fill, is embedded as `none : Option ℝ`
together with the convention that its exponential is 0.
-/

namespace LlmScratch

/-- A rank-4 real tensor of shape (batch, heads, m, n), indexed batch-first. -/
abbrev Tensor4 (B H m n : ℕ) := Fin B → Fin H → Fin m → Fin n → ℝ

/-- A rank-4 integer mask of shape (batch, heads, sq, sk); the source compares
its entries with 0 (mask == 0 means: do not attend). -/
abbrev Mask4 (B H sq sk : ℕ) := Fin B → Fin H → Fin sq → Fin sk → ℤ

/-- Transposition of the last two axes, as in key.transpose(-2, -1). -/
def transposeLast2 {B H m n : ℕ} (t : Tensor4 B H m n) : Tensor4 B H n m :=
  fun b h i j => t b h j i

/-- Batched matrix multiplication over the last two axes, as in torch.matmul
applied to rank-4 tensors with equal leading axes. -/
def matmul4 {B H m n p : ℕ} (t : Tensor4 B H m n) (u : Tensor4 B H n p) :
    Tensor4 B H m p :=
  fun b h i j => ∑ c : Fin n, t b h i c * u b h c j

/-- Raw attention scores of ScaledDotProductAttention.forward:
torch.matmul(query, key.transpose(-2, -1)) divided by the square root of
d_k = query.size(-1), the feature dimension of the query. -/
noncomputable def scores {B H sq sk dk : ℕ}
    (query : Tensor4 B H sq dk) (key : Tensor4 B H sk dk) : Tensor4 B H sq sk :=
  fun b h i j => matmul4 query (transposeLast2 key) b h i j / Real.sqrt (dk : ℝ)

/-- A score after the optional masking step: `none` stands for the floating
point negative infinity written by masked_fill. -/
abbrev MScore := Option ℝ

/-- The masking step of the source: when a mask is given, replace the score
with negative infinity (here `none`) wherever mask == 0; without a mask the
scores pass through unchanged. -/
def maskedFill {B H sq sk : ℕ} (mask : Option (Mask4 B H sq sk))
    (s : Tensor4 B H sq sk) : Fin B → Fin H → Fin sq → Fin sk → MScore :=
  match mask with
  | none => fun b h i j => some (s b h i j)
  | some m => fun b h i j => if m b h i j = 0 then none else some (s b h i j)

/-- Exponential of a possibly negative-infinite score: the exponential of
negative infinity is 0, matching IEEE exp(-inf) = 0 used by softmax. -/
noncomputable def expScore : MScore → ℝ
  | none => 0
  | some x => Real.exp x

/-- F.softmax(scores, dim=-1): softmax along the last (key-position) axis of
the masked scores. -/
noncomputable def softmaxLast {B H sq sk : ℕ}
    (s : Fin B → Fin H → Fin sq → Fin sk → MScore) : Tensor4 B H sq sk :=
  fun b h i j => expScore (s b h i j) / ∑ u : Fin sk, expScore (s b h i u)

/-- ScaledDotProductAttention.forward.  The stochastic nn.Dropout layer is
passed in as an explicit function `drop` on the weights tensor; with dropout
probability 0, or in eval mode, it is the identity.  Returns the pair
(output, attention_weights), where dropout has been applied to the weights
before the output matmul and the dropped weights are what is returned. -/
noncomputable def sdpaForward {B H sq sk dk dv : ℕ}
    (drop : Tensor4 B H sq sk → Tensor4 B H sq sk)
    (query : Tensor4 B H sq dk) (key : Tensor4 B H sk dk)
    (value : Tensor4 B H sk dv) (mask : Option (Mask4 B H sq sk)) :
    Tensor4 B H sq dv × Tensor4 B H sq sk :=
  let s := scores query key
  let ms := maskedFill mask s
  let attention_weights := softmaxLast ms
  let attention_weights := drop attention_weights
  (matmul4 attention_weights value, attention_weights)

/-- The attention computation exactly as the specification words it, written
independently of the definitions above: raw scores are the query times the
transposed key summed over the feature axis, scaled by one over the square
root of the query feature dimension; wherever mask == 0 the exponential
becomes 0 (negative infinity before the softmax); softmax runs along the key
axis; dropout applies strictly after the softmax; the output is the dropped
weights times value and the dropped weights are returned. -/
noncomputable def sdpaSpecFormula {B H sq sk dk dv : ℕ}
    (drop : Tensor4 B H sq sk → Tensor4 B H sq sk)
    (query : Tensor4 B H sq dk) (key : Tensor4 B H sk dk)
    (value : Tensor4 B H sk dv) (mask : Option (Mask4 B H sq sk)) :
    Tensor4 B H sq dv × Tensor4 B H sq sk :=
  let e : Tensor4 B H sq sk := fun b h i j =>
    match mask with
    | none => Real.exp ((∑ c : Fin dk, query b h i c * key b h j c) / Real.sqrt (dk : ℝ))
    | some m =>
        if m b h i j = 0 then 0
        else Real.exp ((∑ c : Fin dk, query b h i c * key b h j c) / Real.sqrt (dk : ℝ))
  let w := drop (fun b h i j => e b h i j / ∑ u : Fin sk, e b h i u)
  (fun b h i d => ∑ j : Fin sk, w b h i j * value b h j d, w)

/-- A concrete query tensor (batch 1, head 1, one query position, feature 1)
used to instantiate the SDPA theorems. -/
def sQ : Tensor4 1 1 1 1 := fun _ _ _ _ => 1

/-- A concrete key tensor with two key positions. -/
def sK : Tensor4 1 1 2 1 := fun _ _ _ _ => 1

/-- A concrete value tensor with two key positions. -/
def sV : Tensor4 1 1 2 1 := fun _ _ _ _ => 1

/-- A concrete binary mask masking key position 0 and keeping key position 1. -/
def sM : Mask4 1 1 1 2 := fun _ _ _ j => if j.val = 0 then 0 else 1

/-- An nn.Linear layer applied to the last axis of a rank-3 tensor: the
output feature o is the weight row o dotted with the input features, plus
the bias entry o, batched over the two leading axes. -/
def linear3 {B s dIn dOut : ℕ} (W : Fin dOut → Fin dIn → ℝ) (bias : Fin dOut → ℝ)
    (x : Fin B → Fin s → Fin dIn → ℝ) : Fin B → Fin s → Fin dOut → ℝ :=
  fun b i o => (∑ c : Fin dIn, W o c * x b i c) + bias o

/-- The reshape of MHA.forward: view(batch, seq, num_heads, head_dim)
followed by transpose(1, 2).  The last axis of size h * d is split row-major,
so head hh owns the contiguous feature block from hh * d to hh * d + d - 1. -/
def splitHeads {B s h d : ℕ} (x : Fin B → Fin s → Fin (h * d) → ℝ) :
    Tensor4 B h s d :=
  fun b hh i t =>
    x b i ⟨hh.val * d + t.val, by
      calc hh.val * d + t.val < hh.val * d + d := Nat.add_lt_add_left t.isLt _
        _ = (hh.val + 1) * d := (Nat.succ_mul _ _).symm
        _ ≤ h * d := Nat.mul_le_mul_right d hh.isLt⟩

/-- The inverse reassembly of MHA.forward: transpose(1, 2) followed by a
contiguous view(batch, seq, embed_dim), concatenating the heads back into
the last axis row-major. -/
def mergeHeads {B s h d : ℕ} (t4 : Tensor4 B h s d) :
    Fin B → Fin s → Fin (h * d) → ℝ :=
  fun b i c =>
    have hd : 0 < d := by
      rcases Nat.eq_zero_or_pos d with h0 | h0
      · exact absurd c.isLt (by simp [h0])
      · exact h0
    t4 b ⟨c.val / d, Nat.div_lt_of_lt_mul (Nat.mul_comm h d ▸ c.isLt)⟩ i
      ⟨c.val % d, Nat.mod_lt _ hd⟩

/-- The learnable attributes created by MultiHeadAttention, with embed_dim e:
weight matrix and bias of q_proj, k_proj, v_proj and out_proj. -/
structure MHAWeights (e : ℕ) where
  Wq : Fin e → Fin e → ℝ
  bq : Fin e → ℝ
  Wk : Fin e → Fin e → ℝ
  bk : Fin e → ℝ
  Wv : Fin e → Fin e → ℝ
  bv : Fin e → ℝ
  Wo : Fin e → Fin e → ℝ
  bo : Fin e → ℝ

/-- MultiHeadAttention.forward exactly as the source writes it: note that the
k and v tensors are also computed through q_proj (lines 101 to 103 of the MHA
notebook pass x through self.q_proj three times), so the created k_proj and
v_proj weights are never used.  The embedding dimension is h * d with h heads
of head dimension d, as enforced by the constructor assertion. -/
noncomputable def mhaForward {B s h d : ℕ} (w : MHAWeights (h * d))
    (drop : Tensor4 B h s s → Tensor4 B h s s)
    (x : Fin B → Fin s → Fin (h * d) → ℝ) (mask : Option (Mask4 B h s s)) :
    (Fin B → Fin s → Fin (h * d) → ℝ) × Tensor4 B h s s :=
  let q := splitHeads (linear3 w.Wq w.bq x)
  let k := splitHeads (linear3 w.Wq w.bq x)
  let v := splitHeads (linear3 w.Wq w.bq x)
  let res := sdpaForward drop q k v mask
  let merged := mergeHeads res.1
  (linear3 w.Wo w.bo merged, res.2)

/-- The MHA forward pass as the specification describes it: identical to
mhaForward except that k and v go through the independent learned k_proj and
v_proj maps.  Written for comparison with the source definition above. -/
noncomputable def mhaForwardSpecProjections {B s h d : ℕ} (w : MHAWeights (h * d))
    (drop : Tensor4 B h s s → Tensor4 B h s s)
    (x : Fin B → Fin s → Fin (h * d) → ℝ) (mask : Option (Mask4 B h s s)) :
    (Fin B → Fin s → Fin (h * d) → ℝ) × Tensor4 B h s s :=
  let q := splitHeads (linear3 w.Wq w.bq x)
  let k := splitHeads (linear3 w.Wk w.bk x)
  let v := splitHeads (linear3 w.Wv w.bv x)
  let res := sdpaForward drop q k v mask
  let merged := mergeHeads res.1
  (linear3 w.Wo w.bo merged, res.2)

/-- Concrete MHA weights with embed_dim 1: q_proj is the identity, k_proj and
v_proj multiply by 2, out_proj is the identity, all biases 0. -/
def wBug : MHAWeights 1 :=
  ⟨fun _ _ => 1, fun _ => 0, fun _ _ => 2, fun _ => 0,
   fun _ _ => 2, fun _ => 0, fun _ _ => 1, fun _ => 0⟩

/-- Concrete input: batch 1, one position, embed_dim 1, value 1. -/
def xBug : Fin 1 → Fin 1 → Fin 1 → ℝ := fun _ _ _ => 1

/-- The attributes that GroupedQueryAttention.__init__ stores on self, in
assignment order: embed_dim, num_query_heads, query_head_dim, num_groups,
heads_per_group and kv_head_dim.  The constructor never stores an attribute
named num_kv_heads. -/
structure GQAAttrs where
  embed_dim : ℕ
  num_query_heads : ℕ
  query_head_dim : ℕ
  num_groups : ℕ
  heads_per_group : ℕ
  kv_head_dim : ℕ
  deriving DecidableEq

/-- MultiHeadAttention.__init__: evaluating embed_dim % num_heads raises a
ZeroDivisionError when num_heads is 0, the assert raises when the remainder
is nonzero, and otherwise the stored dimensions are returned; `none` models
a constructor that raises. -/
def mhaInit (e h : ℕ) : Option (ℕ × ℕ × ℕ) :=
  if h = 0 then none
  else if e % h ≠ 0 then none
  else some (e, h, e / h)

/-- GroupedQueryAttention.__init__: the two asserts run in source order
(embed_dim % num_query_heads == 0, then num_query_heads % num_groups == 0),
each preceded by the Python modulo that raises on a zero divisor; on success
the stored attributes are exactly those of the source, with
query_head_dim = embed_dim // num_query_heads, heads_per_group =
num_query_heads // num_groups and kv_head_dim = query_head_dim * num_groups. -/
def gqaInit (e qh g : ℕ) : Option GQAAttrs :=
  if qh = 0 then none
  else if e % qh ≠ 0 then none
  else if g = 0 then none
  else if qh % g ≠ 0 then none
  else some ⟨e, qh, e / qh, g, qh / g, (e / qh) * g⟩

/-- The names of the integer attributes read or written by the
GroupedQueryAttention class; num_kv_heads appears because forward reads it. -/
inductive GQAAttrName where
  | embed_dim | num_query_heads | query_head_dim | num_groups
  | heads_per_group | kv_head_dim | num_kv_heads
  deriving DecidableEq

/-- Rendering of an attribute name, used in AttributeError messages. -/
def attrNameStr : GQAAttrName → String
  | .embed_dim => "embed_dim"
  | .num_query_heads => "num_query_heads"
  | .query_head_dim => "query_head_dim"
  | .num_groups => "num_groups"
  | .heads_per_group => "heads_per_group"
  | .kv_head_dim => "kv_head_dim"
  | .num_kv_heads => "num_kv_heads"

/-- The instance dictionary of a constructed GroupedQueryAttention, as a
lookup from integer attribute names to values: exactly the six attributes
assigned by __init__ are present; num_kv_heads is absent. -/
def gqaAttrLookup (a : GQAAttrs) : GQAAttrName → Option ℕ
  | .embed_dim => some a.embed_dim
  | .num_query_heads => some a.num_query_heads
  | .query_head_dim => some a.query_head_dim
  | .num_groups => some a.num_groups
  | .heads_per_group => some a.heads_per_group
  | .kv_head_dim => some a.kv_head_dim
  | .num_kv_heads => none

/-- Python attribute read on a GQA instance: the stored value, or an
AttributeError for a name that was never assigned. -/
def getattrGQA (a : GQAAttrs) (n : GQAAttrName) : Except String ℕ :=
  match gqaAttrLookup a n with
  | some v => Except.ok v
  | none => Except.error ("AttributeError: " ++ attrNameStr n)

/-- Shape of nn.Linear applied to a rank-3 tensor: defined when the last
axis equals the in-features, which it replaces with the out-features. -/
def linearShape3 (inF outF : ℕ) (sh : List ℕ) : Option (List ℕ) :=
  match sh with
  | [a, b, c] => if c = inF then some [a, b, outF] else none
  | _ => none

/-- Shape of tensor.view: the target shape, defined when the element count
is preserved. -/
def viewShape (sh target : List ℕ) : Option (List ℕ) :=
  if sh.prod = target.prod then some target else none

/-- Shape of transpose(1, 2) on a rank-4 tensor. -/
def transpose12 (sh : List ℕ) : Option (List ℕ) :=
  match sh with
  | [a, b, c, d] => some [a, c, b, d]
  | _ => none

/-- Shape of transpose(-2, -1) on a rank-4 tensor. -/
def transposeLast2Shape (sh : List ℕ) : Option (List ℕ) :=
  match sh with
  | [a, b, c, d] => some [a, b, d, c]
  | _ => none

/-- Shape of torch.matmul on two rank-4 tensors with equal leading axes and
a matching contraction axis. -/
def matmulShape (s1 s2 : List ℕ) : Option (List ℕ) :=
  match s1, s2 with
  | [a, b, m, n], [a2, b2, n2, p] =>
      if a = a2 ∧ b = b2 ∧ n = n2 then some [a, b, m, p] else none
  | _, _ => none

/-- Shape of repeat_interleave(r, dim=1) on a rank-4 tensor: the head axis
is multiplied by the repeat factor. -/
def repeatHeadsShape (r : ℕ) (sh : List ℕ) : Option (List ℕ) :=
  match sh with
  | [a, b, c, d] => some [a, b * r, c, d]
  | _ => none

/-- Lifting of a shape-level result into the forward-call Except: a shape
failure surfaces as a RuntimeError. -/
def shapeStep (o : Option (List ℕ)) : Except String (List ℕ) :=
  match o with
  | some sh => Except.ok sh
  | none => Except.error "RuntimeError: shape mismatch"

/-- GroupedQueryAttention.forward at the level of integer attribute reads
and tensor shapes, following the source statements in order, for an input x
of the documented shape (batch, seq, embed_dim).  The projection modules are
assigned by the constructor, so only the integer attribute reads can raise
an AttributeError; tensor operations propagate shapes and raise shape
errors.  Returns the shapes of (output, attn_weights). -/
def gqaForward (inst : GQAAttrs) (batch seq : ℕ) :
    Except String (List ℕ × List ℕ) := do
  let x := [batch, seq, inst.embed_dim]
  let qf ← shapeStep (linearShape3 inst.embed_dim inst.embed_dim x)
  let nq ← getattrGQA inst .num_query_heads
  let qhd ← getattrGQA inst .query_head_dim
  let q1 ← shapeStep (viewShape qf [batch, seq, nq, qhd])
  let q ← shapeStep (transpose12 q1)
  let kf ← shapeStep (linearShape3 inst.embed_dim inst.kv_head_dim x)
  let nkv ← getattrGQA inst .num_kv_heads
  let kvd ← getattrGQA inst .kv_head_dim
  let k1 ← shapeStep (viewShape kf [batch, seq, nkv, kvd])
  let k ← shapeStep (transpose12 k1)
  let vf ← shapeStep (linearShape3 inst.embed_dim inst.kv_head_dim x)
  let v1 ← shapeStep (viewShape vf [batch, seq, nkv, kvd])
  let v ← shapeStep (transpose12 v1)
  let kr ← if nq = nkv then pure k else shapeStep (repeatHeadsShape (nq / nkv) k)
  let vr ← if nq = nkv then pure v else shapeStep (repeatHeadsShape (nq / nkv) v)
  let krt ← shapeStep (transposeLast2Shape kr)
  let sc ← shapeStep (matmulShape q krt)
  let outh ← shapeStep (matmulShape sc vr)
  let o1 ← shapeStep (transpose12 outh)
  let o2 ← shapeStep (viewShape o1 [batch, seq, inst.embed_dim])
  let output ← shapeStep (linearShape3 inst.embed_dim inst.embed_dim o2)
  return (output, sc)

/-- First half of MultiHeadLatentAttention.forward at the shape level: the
shared latent down-projection of x, and the per-head Q, K, V obtained by the
projections, views and transposes of the source, in order. -/
def mlaQKVShapes (e h l batch seq : ℕ) :
    Option (List ℕ × List ℕ × List ℕ × List ℕ) := do
  let head_dim := e / h
  let x := [batch, seq, e]
  let latent ← linearShape3 e l x
  let qf ← linearShape3 e e x
  let q1 ← viewShape qf [batch, seq, h, head_dim]
  let q ← transpose12 q1
  let kf ← linearShape3 l e latent
  let k1 ← viewShape kf [batch, seq, h, head_dim]
  let k ← transpose12 k1
  let vf ← linearShape3 l e latent
  let v1 ← viewShape vf [batch, seq, h, head_dim]
  let v ← transpose12 v1
  return (latent, q, k, v)

/-- Second half of MultiHeadLatentAttention.forward at the shape level:
scores, attention application, head reassembly and the output projection.
The mask branch, softmax, the scalar scaling and dropout preserve shape. -/
def mlaAttendShapes (e batch seq : ℕ) (q k v : List ℕ) : Option (List ℕ) := do
  let kt ← transposeLast2Shape k
  let sc ← matmulShape q kt
  let outh ← matmulShape sc v
  let o1 ← transpose12 outh
  let o2 ← viewShape o1 [batch, seq, e]
  let output ← linearShape3 e e o2
  return output

/-- MultiHeadLatentAttention.forward at the shape level: returns the shapes
of (output, latent) for an input of shape (batch, seq, embed_dim) under the
configuration (embed_dim, num_heads, latent_dim). -/
def mlaForwardShapes (e h l batch seq : ℕ) : Option (List ℕ × List ℕ) := do
  let (latent, q, k, v) ← mlaQKVShapes e h l batch seq
  let output ← mlaAttendShapes e batch seq q k v
  return (output, latent)

/-- torch.repeat_interleave(r, dim=1) on the head axis, with the tensor
viewed as the list of its per-head slices: every slice is repeated r times
in place (interleaved repetition, not tiling of the whole list). -/
def repeatInterleave {α : Type} (r : ℕ) (heads : List α) : List α :=
  (heads.map (List.replicate r)).flatten

/-- The attribute record of GroupedQueryAttention(embed_dim=4,
num_query_heads=4, num_groups=2). -/
def gqaInst0 : GQAAttrs := ⟨4, 4, 1, 2, 2, 2⟩

/-- C1: the forward pass of SDPA computes exactly the masked, scaled,
softmax-normalised, post-softmax-dropped attention formula. -/
theorem sdpa_forward_matches_spec {B H sq sk dk dv : ℕ}
    (drop : Tensor4 B H sq sk → Tensor4 B H sq sk)
    (query : Tensor4 B H sq dk) (key : Tensor4 B H sk dk)
    (value : Tensor4 B H sk dv) (mask : Option (Mask4 B H sq sk)) :
    sdpaForward drop query key value mask =
      sdpaSpecFormula drop query key value mask := by
  cases mask with
  | none =>
      rfl
  | some m =>
      have hw : softmaxLast (maskedFill (some m) (scores query key)) =
          (fun b h i j =>
            (if m b h i j = 0 then (0 : ℝ)
              else Real.exp ((∑ c : Fin dk, query b h i c * key b h j c) / Real.sqrt (dk : ℝ))) /
            ∑ u : Fin sk,
              (if m b h i u = 0 then (0 : ℝ)
                else Real.exp ((∑ c : Fin dk, query b h i c * key b h u c) / Real.sqrt (dk : ℝ)))) := by
        funext b h i j
        unfold softmaxLast
        congr 1
        · by_cases hm : m b h i j = 0 <;>
            simp [maskedFill, expScore, hm, scores, matmul4, transposeLast2]
        · refine Finset.sum_congr rfl fun u _ => ?_
          by_cases hm : m b h i u = 0 <;>
            simp [maskedFill, expScore, hm, scores, matmul4, transposeLast2]
      show (matmul4 (drop (softmaxLast (maskedFill (some m) (scores query key)))) value,
        drop (softmaxLast (maskedFill (some m) (scores query key)))) = _
      rw [hw]
      rfl

/-- C7: supplying an all-ones mask is a no-op, producing exactly the same
output and attention weights as supplying no mask. -/
theorem sdpa_all_ones_mask_noop {B H sq sk dk dv : ℕ}
    (drop : Tensor4 B H sq sk → Tensor4 B H sq sk)
    (query : Tensor4 B H sq dk) (key : Tensor4 B H sk dk)
    (value : Tensor4 B H sk dv) :
    sdpaForward drop query key value (some (fun _ _ _ _ => (1 : ℤ))) =
      sdpaForward drop query key value none := by
  have hmf : (maskedFill (some (fun _ _ _ _ => (1 : ℤ))) :
      Tensor4 B H sq sk → Fin B → Fin H → Fin sq → Fin sk → MScore) = maskedFill none := by
    funext s b h i j
    simp [maskedFill]
  unfold sdpaForward
  rw [hmf]

/-- C3: with dropout probability 0 (the identity drop function), and with no
mask or a mask that leaves at least one key unmasked for every query, the
attention weights sum to 1 along the key axis for every (batch, head, query
position) triple. -/
theorem sdpa_weights_sum_one {B H sq sk dk dv : ℕ}
    (query : Tensor4 B H sq dk) (key : Tensor4 B H sk dk)
    (value : Tensor4 B H sk dv) (mask : Option (Mask4 B H sq sk))
    (hsk : 0 < sk)
    (hmask : ∀ m, mask = some m → ∀ b h i, ∃ j, m b h i j ≠ 0) :
    ∀ b h i, ∑ j : Fin sk, (sdpaForward id query key value mask).2 b h i j = 1 := by
  intro b h i
  have hnonneg : ∀ j, 0 ≤ expScore (maskedFill mask (scores query key) b h i j) := by
    intro j
    cases hm : maskedFill mask (scores query key) b h i j with
    | none => simp [expScore]
    | some x => exact (Real.exp_pos x).le
  have hpos : ∃ j : Fin sk, 0 < expScore (maskedFill mask (scores query key) b h i j) := by
    cases mask with
    | none => exact ⟨⟨0, hsk⟩, by simp [maskedFill, expScore, Real.exp_pos]⟩
    | some m =>
        obtain ⟨j, hj⟩ := hmask m rfl b h i
        exact ⟨j, by simp [maskedFill, expScore, hj, Real.exp_pos]⟩
  have hS : 0 < ∑ u : Fin sk, expScore (maskedFill mask (scores query key) b h i u) := by
    obtain ⟨j, hj⟩ := hpos
    exact Finset.sum_pos' (fun u _ => hnonneg u) ⟨j, Finset.mem_univ j, hj⟩
  show ∑ j : Fin sk, softmaxLast (maskedFill mask (scores query key)) b h i j = 1
  unfold softmaxLast
  rw [← Finset.sum_div, div_self (ne_of_gt hS)]

/-- Witness for C3 at the concrete inputs sQ, sK, sV, sM. -/
theorem sdpa_weights_sum_one_witness :
    ((0 : ℕ) < 2 ∧ (∀ m, (some sM = some m) → ∀ b h i, ∃ j, m b h i j ≠ 0)) ∧
      ∀ b h i, ∑ j : Fin 2, (sdpaForward id sQ sK sV (some sM)).2 b h i j = 1 :=
  ⟨⟨by decide, fun m hm b h i => ⟨1, by cases hm; simp [sM]⟩⟩,
    sdpa_weights_sum_one sQ sK sV (some sM) (by decide)
      (fun m hm b h i => ⟨1, by cases hm; simp [sM]⟩)⟩

/-- C8: with dropout disabled, a key position whose mask entry is 0 receives
attention weight exactly 0, whatever its raw score. -/
theorem sdpa_masked_weight_zero {B H sq sk dk dv : ℕ}
    (query : Tensor4 B H sq dk) (key : Tensor4 B H sk dk)
    (value : Tensor4 B H sk dv) (m : Mask4 B H sq sk)
    (b : Fin B) (h : Fin H) (i : Fin sq) (j : Fin sk)
    (hj : m b h i j = 0) (_hother : ∃ u, m b h i u ≠ 0) :
    (sdpaForward id query key value (some m)).2 b h i j = 0 := by
  show softmaxLast (maskedFill (some m) (scores query key)) b h i j = 0
  unfold softmaxLast
  simp [maskedFill, hj, expScore]

/-- Witness for C8 at the concrete inputs sQ, sK, sV, sM with the masked key
position 0. -/
theorem sdpa_masked_weight_zero_witness :
    (sM 0 0 0 0 = 0 ∧ ∃ u, sM 0 0 0 u ≠ 0) ∧
      (sdpaForward id sQ sK sV (some sM)).2 0 0 0 0 = 0 :=
  ⟨⟨by simp [sM], ⟨1, by simp [sM]⟩⟩,
    sdpa_masked_weight_zero sQ sK sV sM 0 0 0 0 (by simp [sM]) ⟨1, by simp [sM]⟩⟩

/-- C2 counter-evidence: at embed_dim 1 with q_proj the identity and k_proj,
v_proj doubling, the source forward returns 1 (k and v were computed through
q_proj), while the forward that uses the three independent projections, as
the specification and the claim describe, returns 2. -/
theorem mha_forward_qproj_slip :
    (@mhaForward 1 1 1 1 wBug id xBug none).1 = (fun _ _ _ => 1) ∧
    (@mhaForwardSpecProjections 1 1 1 1 wBug id xBug none).1 = (fun _ _ _ => 2) := by
  constructor <;>
  · funext b i o
    simp [mhaForward, mhaForwardSpecProjections, wBug, xBug, linear3, splitHeads, mergeHeads,
      sdpaForward, scores, matmul4, transposeLast2, maskedFill, softmaxLast, expScore,
      Finset.sum_const, Finset.card_univ, div_self, Real.exp_ne_zero]

/-- C6: for positive head and group counts, MHA construction succeeds if and
only if embed_dim % num_heads == 0, and GQA construction succeeds if and
only if embed_dim % num_query_heads == 0 and num_query_heads % num_groups
== 0; otherwise the constructors raise and construction does not proceed. -/
theorem init_divisibility_errors (e h qh g : ℕ)
    (hh : 0 < h) (hq : 0 < qh) (hg : 0 < g) :
    ((mhaInit e h).isSome ↔ e % h = 0) ∧
    ((gqaInit e qh g).isSome ↔ (e % qh = 0 ∧ qh % g = 0)) := by
  constructor
  · by_cases hd : e % h = 0 <;> simp [mhaInit, hh.ne', hd]
  · by_cases h1 : e % qh = 0 <;> by_cases h2 : qh % g = 0 <;>
      simp [gqaInit, hq.ne', hg.ne', h1, h2]

/-- Witness for C6 at embed_dim 8, 2 heads, 4 query heads, 2 groups. -/
theorem init_divisibility_errors_witness :
    ((0:ℕ) < 2 ∧ (0:ℕ) < 4 ∧ (0:ℕ) < 2) ∧
    (((mhaInit 8 2).isSome ↔ (8:ℕ) % 2 = 0) ∧
     ((gqaInit 8 4 2).isSome ↔ ((8:ℕ) % 4 = 0 ∧ (4:ℕ) % 2 = 0))) :=
  ⟨⟨by decide, by decide, by decide⟩,
    init_divisibility_errors 8 2 4 2 (by decide) (by decide) (by decide)⟩

/-- C10: every successfully constructed GroupedQueryAttention instance
raises AttributeError on every forward call, because forward reads
self.num_kv_heads, which the constructor never assigns; the failure happens
before any output is produced. -/
theorem gqa_forward_attribute_error (e qh g : ℕ) (inst : GQAAttrs)
    (hinit : gqaInit e qh g = some inst) (batch seq : ℕ) :
    gqaForward inst batch seq = Except.error "AttributeError: num_kv_heads" := by
  unfold gqaInit at hinit
  split_ifs at hinit with h1 h2 h3 h4
  cases hinit
  have he : qh * (e / qh) = e := Nat.mul_div_cancel' (Nat.dvd_of_mod_eq_zero (not_not.mp h2))
  simp [gqaForward, getattrGQA, gqaAttrLookup, attrNameStr, shapeStep, linearShape3,
    viewShape, transpose12, Bind.bind, Except.bind, he, mul_comm]

/-- Witness for C10 on the instance built by GQA(4, 4, 2). -/
theorem gqa_forward_attribute_error_witness :
    gqaInit 4 4 2 = some gqaInst0 ∧
      gqaForward gqaInst0 1 3 = Except.error "AttributeError: num_kv_heads" :=
  ⟨by rfl, gqa_forward_attribute_error 4 4 2 gqaInst0 (by rfl) 1 3⟩

/-- C5 counter-evidence: in both degenerate configurations the GQA forward
call raises instead of producing an output: with num_groups =
num_query_heads (the claimed MHA case, here GQA(4, 4, 4)) and with
num_groups = 1 (the claimed MQA case, here GQA(4, 4, 1)), construction
succeeds but forward stops with AttributeError: num_kv_heads, so no GQA
output exists to equal the MHA or MQA output. -/
theorem gqa_degenerate_configs_crash :
    gqaInit 4 4 4 = some ⟨4, 4, 1, 4, 1, 4⟩ ∧
    gqaForward ⟨4, 4, 1, 4, 1, 4⟩ 1 2 = Except.error "AttributeError: num_kv_heads" ∧
    gqaInit 4 4 1 = some ⟨4, 4, 1, 1, 4, 1⟩ ∧
    gqaForward ⟨4, 4, 1, 1, 4, 1⟩ 1 2 = Except.error "AttributeError: num_kv_heads" :=
  ⟨by rfl, by rfl, by rfl, by rfl⟩

/-- C9: for every valid MLA configuration (num_heads positive and dividing
embed_dim) and every batch and sequence length, the output shape equals the
input shape (batch, seq, embed_dim) whatever latent_dim is, and the latent
tensor computed by the shared down-projection has shape (batch, seq,
latent_dim) whatever embed_dim is. -/
theorem mla_shapes_ok (e h l batch seq : ℕ) (_hh : 0 < h) (hdvd : e % h = 0) :
    mlaForwardShapes e h l batch seq = some ([batch, seq, e], [batch, seq, l]) := by
  have he : h * (e / h) = e := Nat.mul_div_cancel' (Nat.dvd_of_mod_eq_zero hdvd)
  simp [mlaForwardShapes, mlaQKVShapes, mlaAttendShapes, linearShape3, viewShape,
    transpose12, transposeLast2Shape, matmulShape, Option.bind, he]

/-- Witness for C9 at the configuration of the test cell in the MLA
notebook: embed_dim 512, 8 heads, latent_dim 128, batch 2, seq_len 1024. -/
theorem mla_shapes_ok_witness :
    ((0:ℕ) < 8 ∧ 512 % 8 = 0) ∧
      mlaForwardShapes 512 8 128 2 1024 =
        some ([2, 1024, 512], [2, 1024, 128]) :=
  ⟨⟨by decide, by decide⟩, mla_shapes_ok 512 8 128 2 1024 (by decide) (by decide)⟩

/-- Position n of an interleaved repetition holds the slice of head n / r. -/
theorem repeatInterleave_getElem {α : Type} (r : ℕ) (hr : 0 < r) (heads : List α) (n : ℕ) :
    (repeatInterleave r heads)[n]? = heads[n / r]? := by
  induction heads generalizing n with
  | nil => simp [repeatInterleave]
  | cons a tl ih =>
      have hrep : repeatInterleave r (a :: tl) = List.replicate r a ++ repeatInterleave r tl := by
        simp [repeatInterleave]
      rw [hrep]
      by_cases hn : n < r
      · rw [List.getElem?_append_left (by simpa using hn)]
        rw [Nat.div_eq_of_lt hn]
        simp [List.getElem?_replicate_of_lt hn]
      · push_neg at hn
        rw [List.getElem?_append_right (by simpa using hn)]
        simp only [List.length_replicate]
        rw [ih]
        have h1 : n / r = (n - r) / r + 1 := by
          conv_lhs => rw [(Nat.sub_add_cancel hn).symm]
          rw [Nat.add_div_right _ hr]
        rw [h1]
        simp

/-- C4: repeat_interleave with factor r = num_query_heads / num_groups on
the list of K/V group slices places group i exactly at the contiguous block
of query-head positions from i * r up to but excluding (i + 1) * r: every
query head n in that block reads the slice of group i. -/
theorem gqa_repeat_interleave_blocks {α : Type} (r : ℕ) (heads : List α)
    (i n : ℕ) (hr : 0 < r) (hlo : i * r ≤ n) (hhi : n < (i + 1) * r) :
    (repeatInterleave r heads)[n]? = heads[i]? := by
  rw [repeatInterleave_getElem r hr]
  congr 1
  exact Nat.div_eq_of_lt_le hlo hhi

/-- Witness for C4 on the concrete scenario of the specification:
num_query_heads 4 and num_groups 2, so r = 2; query head 3 lies in the
block of group 1 and reads group 1. -/
theorem gqa_repeat_interleave_blocks_witness :
    ((0:ℕ) < 2 ∧ 1 * 2 ≤ 3 ∧ 3 < (1 + 1) * 2) ∧
      (repeatInterleave 2 [0, 1] : List ℕ)[3]? = [0, 1][1]? :=
  ⟨⟨by decide, by decide, by decide⟩,
    gqa_repeat_interleave_blocks 2 [0, 1] 1 3 (by decide) (by decide) (by decide)⟩

end LlmScratch
